import Mathlib

/-!
Verification of the single-round blackjack program (`src/main.rs`).

The card model, deck construction, hand totalling and the round loop of
`play_round` are embedded shallowly.  `Vec::split_off` at `len - k` is
modelled with `List.take`/`List.drop`/`getLast?`; the `usize` underflow
that `deck.split_off(deck.len() - 1)` performs on an empty deck is
modelled as an explicit `panicked` result.  The shuffle is random, so the
round is parameterised by the post-shuffle deck; stdin is modelled as the
list of lines the iterator yields.
-/

set_option maxHeartbeats 1000000

/-- `enum Suit`, in Rust declaration order (which `derive(Ord)` uses). -/
inductive Suit where
  | spades
  | hearts
  | diamonds
  | clubs
deriving DecidableEq, Repr, Fintype

/-- `enum Value`, in Rust declaration order. -/
inductive Value where
  | two
  | three
  | four
  | five
  | six
  | seven
  | eight
  | nine
  | ten
  | jack
  | queen
  | king
  | ace
deriving DecidableEq, Repr, Fintype

/-- `impl From<Value> for usize`: the rank-to-point-value mapping. -/
def usizeFrom : Value → Nat
  | .two => 2
  | .three => 3
  | .four => 4
  | .five => 5
  | .six => 6
  | .seven => 7
  | .eight => 8
  | .nine => 9
  | .ten | .jack | .queen | .king => 10
  | .ace => 11

/-- `struct Card { value, suit }`. -/
structure Card where
  value : Value
  suit : Suit
deriving DecidableEq, Repr, Fintype

/-- `const SUITS: [Suit; 4]`. -/
def SUITS : List Suit := [.spades, .hearts, .diamonds, .clubs]

/-- `const VALUES: [Value; 13]`. -/
def VALUES : List Value :=
  [.two, .three, .four, .five, .six, .seven, .eight, .nine, .ten,
   .jack, .queen, .king, .ace]

/-- `create_deck()`: outer loop over `SUITS`, inner loop over `VALUES`,
pushing `Card::new(value, suit)`. -/
def create_deck : List Card :=
  SUITS.flatMap fun suit => VALUES.map fun value => Card.mk value suit

/-- `card_total`: fold over the cards accumulating the rank values. -/
def card_total (cards : List Card) : Nat :=
  cards.foldl (fun total card => total + usizeFrom card.value) 0

/-- `const MAX_VALUE: usize = 21`. -/
def MAX_VALUE : Nat := 21

/-- The mutable locals of `play_round`: `deck`, `dealer_cards`,
`player_cards`. -/
structure RoundState where
  deck : List Card
  dealer : List Card
  player : List Card
deriving DecidableEq, Repr

/-- Which terminal message `play_round` prints before returning. -/
inductive EndMsg where
  | bust
  | standLoss
  | standWin
deriving DecidableEq, Repr

/-- Result of one iteration of the `while let` loop body:
continue looping (with `invalidMsg` recording whether the
"Invalid option" message was printed), return from the function, or
panic. -/
inductive StepOut where
  | next (s : RoundState) (invalidMsg : Bool)
  | ret (won : Bool) (msg : EndMsg) (final : RoundState)
  | panicked
deriving DecidableEq, Repr

/-- The hit draw `deck.split_off(deck.len() - 1)` followed by
`player_cards.extend_from_slice`.  On an empty deck `deck.len() - 1`
underflows `usize` and the program panics, modelled as `none`. -/
def hitDraw (s : RoundState) : Option RoundState :=
  match s.deck.getLast? with
  | none => none
  | some card => some ⟨s.deck.dropLast, s.dealer, s.player ++ [card]⟩

/-- The `match line.as_str()` body of the loop in `play_round`. -/
def stepLine (s : RoundState) (line : String) : StepOut :=
  if line = "1" then
    match hitDraw s with
    | none => .panicked
    | some s' =>
      if card_total s'.player > MAX_VALUE then .ret false .bust s'
      else .next s' false
  else if line = "2" then
    if card_total s.player < card_total s.dealer then .ret false .standLoss s
    else .ret true .standWin s
  else .next s true

/-- Result of the whole loop: the returned boolean, the terminal message
printed (none on the exhausted-input path `Ok(false)`), the hands and
deck at return time — or a panic. -/
inductive RoundResult where
  | ret (won : Bool) (msg : Option EndMsg) (final : RoundState)
  | panicked
deriving DecidableEq, Repr

/-- The `while let Some(Ok(line)) = lines.next()` loop of `play_round`,
over the list of lines stdin yields. -/
def runLoop : RoundState → List String → RoundResult
  | s, [] => .ret false none s
  | s, line :: rest =>
    match stepLine s line with
    | .next s' _ => runLoop s' rest
    | .ret won msg final => .ret won (some msg) final
    | .panicked => .panicked

/-- The two deals at the top of `play_round`:
`dealer_cards` gets `deck.split_off(deck.len() - 2)` (the last two cards
of the shuffled deck), then `player_cards` gets the next two from the new
tail. -/
def deal (shuffled : List Card) : RoundState :=
  let deck1 := shuffled.take (shuffled.length - 2)
  let dealer_cards := shuffled.drop (shuffled.length - 2)
  let deck2 := deck1.take (deck1.length - 2)
  let player_cards := deck1.drop (deck1.length - 2)
  ⟨deck2, dealer_cards, player_cards⟩

/-- `play_round`, parameterised by the post-shuffle deck and the stdin
lines. -/
def play_round (shuffled : List Card) (lines : List String) : RoundResult :=
  runLoop (deal shuffled) lines

/-- Round states visited by `play_round` for a given shuffled deck: the
state right after dealing, every state the loop continues with, and the
final state of a returning iteration — in particular the post-hit state
of a bust-terminating hit, which the program still renders before
returning. -/
inductive Reachable (shuffled : List Card) : RoundState → Prop
  | init : Reachable shuffled (deal shuffled)
  | step {s s' : RoundState} {line : String} {b : Bool} :
      Reachable shuffled s → stepLine s line = .next s' b →
      Reachable shuffled s'
  | stop {s s' : RoundState} {line : String} {won : Bool} {msg : EndMsg} :
      Reachable shuffled s → stepLine s line = .ret won msg s' →
      Reachable shuffled s'

/-- Position of a suit in the Rust enum declaration order. -/
def suitIdx : Suit → Nat
  | .spades => 0
  | .hearts => 1
  | .diamonds => 2
  | .clubs => 3

/-- Position of a rank in the Rust enum declaration order. -/
def valueIdx : Value → Nat
  | .two => 0
  | .three => 1
  | .four => 2
  | .five => 3
  | .six => 4
  | .seven => 5
  | .eight => 6
  | .nine => 7
  | .ten => 8
  | .jack => 9
  | .queen => 10
  | .king => 11
  | .ace => 12

/-- Suit-major, rank-minor strict ordering on cards. -/
def cardLexLt (c1 c2 : Card) : Prop :=
  suitIdx c1.suit < suitIdx c2.suit ∨
    (c1.suit = c2.suit ∧ valueIdx c1.value < valueIdx c2.value)

instance : DecidablePred (fun p : Card × Card => cardLexLt p.1 p.2) := by
  intro p
  unfold cardLexLt
  infer_instance

instance (c1 c2 : Card) : Decidable (cardLexLt c1 c2) := by
  unfold cardLexLt
  infer_instance

/-- A concrete permutation of `create_deck` whose deal gives the player
the two red-suit aces (indices 48 and 49 feed the player hand): the
aces of spades and hearts are swapped with the jack and queen of clubs. -/
def ex_shuffle : List Card :=
  ((((create_deck.set 48 ⟨.ace, .spades⟩).set 12 ⟨.jack, .clubs⟩).set 49
      ⟨.ace, .hearts⟩).set 25 ⟨.queen, .clubs⟩)

lemma foldl_add_usizeFrom (l : List Card) (a : Nat) :
    l.foldl (fun total card => total + usizeFrom card.value) a
      = a + (l.map fun card => usizeFrom card.value).sum := by
  induction l generalizing a with
  | nil => simp
  | cons c l ih => simp [List.foldl_cons, ih, Nat.add_assoc]

lemma card_total_eq_sum (l : List Card) :
    card_total l = (l.map fun card => usizeFrom card.value).sum := by
  simpa using foldl_add_usizeFrom l 0

lemma deal_perm (l : List Card) :
    ((deal l).deck ++ (deal l).dealer ++ (deal l).player).Perm l := by
  have h1 : (deal l).deck ++ (deal l).player = l.take (l.length - 2) :=
    List.take_append_drop _ _
  have h2 : l.take (l.length - 2) ++ (deal l).dealer = l :=
    List.take_append_drop _ _
  have hp : ((deal l).deck ++ (deal l).dealer ++ (deal l).player).Perm
      ((deal l).deck ++ (deal l).player ++ (deal l).dealer) := by
    rw [List.append_assoc, List.append_assoc]
    exact List.Perm.append_left _ List.perm_append_comm
  rw [h1, h2] at hp
  exact hp

lemma hitDraw_perm {s s' : RoundState} (h : hitDraw s = some s') :
    (s'.deck ++ s'.dealer ++ s'.player).Perm
      (s.deck ++ s.dealer ++ s.player) := by
  unfold hitDraw at h
  cases hlast : s.deck.getLast? with
  | none => rw [hlast] at h; simp at h
  | some card =>
    rw [hlast] at h
    injection h with hs
    subst hs
    obtain ⟨l', hdeck⟩ := List.getLast?_eq_some_iff.1 hlast
    rw [List.perm_iff_count]
    intro a
    simp [hdeck, List.count_append, List.count_cons]
    omega

lemma stepLine_next_perm {s s' : RoundState} {line : String} {b : Bool}
    (h : stepLine s line = .next s' b) :
    (s'.deck ++ s'.dealer ++ s'.player).Perm (s.deck ++ s.dealer ++ s.player) := by
  by_cases h1 : line = "1"
  · subst h1
    unfold stepLine at h
    rw [if_pos rfl] at h
    cases hdraw : hitDraw s with
    | none => rw [hdraw] at h; simp at h
    | some s2 =>
      rw [hdraw] at h
      dsimp only [] at h
      by_cases hbust : card_total s2.player > MAX_VALUE
      · rw [if_pos hbust] at h
        exact absurd h (by simp)
      · rw [if_neg hbust] at h
        injection h with hs hb
        subst hs
        exact hitDraw_perm hdraw
  · by_cases h2 : line = "2"
    · subst h2
      unfold stepLine at h
      rw [if_neg (by decide), if_pos rfl] at h
      split_ifs at h
    · unfold stepLine at h
      rw [if_neg h1, if_neg h2] at h
      injection h with hs hb
      subst hs
      exact List.Perm.refl _

lemma stepLine_ret_perm {s s' : RoundState} {line : String} {won : Bool}
    {msg : EndMsg} (h : stepLine s line = .ret won msg s') :
    (s'.deck ++ s'.dealer ++ s'.player).Perm (s.deck ++ s.dealer ++ s.player) := by
  by_cases h1 : line = "1"
  · subst h1
    unfold stepLine at h
    rw [if_pos rfl] at h
    cases hdraw : hitDraw s with
    | none => rw [hdraw] at h; simp at h
    | some s2 =>
      rw [hdraw] at h
      dsimp only [] at h
      by_cases hbust : card_total s2.player > MAX_VALUE
      · rw [if_pos hbust] at h
        injection h with hw hm hs
        subst hs
        exact hitDraw_perm hdraw
      · rw [if_neg hbust] at h
        exact absurd h (by simp)
  · by_cases h2 : line = "2"
    · subst h2
      unfold stepLine at h
      rw [if_neg (by decide), if_pos rfl] at h
      split_ifs at h <;>
        · injection h with hw hm hs
          subst hs
          exact List.Perm.refl _
    · unfold stepLine at h
      rw [if_neg h1, if_neg h2] at h
      exact absurd h (by simp)

/-- Claim C1 finding: on a round state whose deck is empty, input "1"
makes the hit draw `deck.split_off(deck.len() - 1)` underflow `usize`,
so the loop body panics rather than resolving the round to a loss. -/
theorem hit_on_empty_deck_panics :
    (∀ dealer player : List Card, ∀ rest : List String,
      stepLine ⟨[], dealer, player⟩ "1" = .panicked ∧
      runLoop ⟨[], dealer, player⟩ ("1" :: rest) = .panicked) ∧
    runLoop ⟨[], [Card.mk .ten .clubs, Card.mk .four .diamonds],
        [Card.mk .two .spades, Card.mk .three .hearts]⟩ ["1"]
      = .panicked :=
  ⟨fun _ _ _ => ⟨rfl, rfl⟩, rfl⟩

/-- Claim C2: on input "2" (Stand), if the player total is strictly
below the dealer total the round returns `false` with the stand-loss
message; otherwise (ties included) it returns `true` with the stand-win
message.  Both are terminal (the rest of the input is ignored) and the
final state is the state at the moment of standing: no cards move. -/
theorem stand_outcome (s : RoundState) (rest : List String) :
    (card_total s.player < card_total s.dealer →
      runLoop s ("2" :: rest) = .ret false (some .standLoss) s) ∧
    (card_total s.dealer ≤ card_total s.player →
      runLoop s ("2" :: rest) = .ret true (some .standWin) s) := by
  have hstep : stepLine s "2" =
      if card_total s.player < card_total s.dealer then .ret false .standLoss s
      else .ret true .standWin s := rfl
  have hrun : runLoop s ("2" :: rest) =
      (match stepLine s "2" with
        | .next s' _ => runLoop s' rest
        | .ret won msg final => .ret won (some msg) final
        | .panicked => .panicked) := rfl
  constructor
  · intro h
    rw [hrun, hstep, if_pos h]
  · intro h
    rw [hrun, hstep, if_neg (Nat.not_lt.mpr h)]

/-- Claim C2 witness: standing on a 17-versus-17 tie wins. -/
theorem stand_outcome_witness :
    card_total [Card.mk .ten .spades, Card.mk .seven .spades]
      ≤ card_total [Card.mk .ten .hearts, Card.mk .seven .hearts] ∧
    runLoop ⟨[], [Card.mk .ten .spades, Card.mk .seven .spades],
        [Card.mk .ten .hearts, Card.mk .seven .hearts]⟩ ["2"]
      = .ret true (some .standWin)
        ⟨[], [Card.mk .ten .spades, Card.mk .seven .spades],
         [Card.mk .ten .hearts, Card.mk .seven .hearts]⟩ :=
  ⟨by decide,
   (stand_outcome ⟨[], [Card.mk .ten .spades, Card.mk .seven .spades],
      [Card.mk .ten .hearts, Card.mk .seven .hearts]⟩ []).2 (by decide)⟩

/-- Claim C3: on input "1" (Hit) with a non-empty deck, exactly the last
card of the deck is removed and appended to the player hand; if the new
player total exceeds 21 the round returns `false` with the bust message,
regardless of the dealer hand, and otherwise the loop continues on the
updated state. -/
theorem hit_outcome (s : RoundState) (card : Card) (rest : List String)
    (hlast : s.deck.getLast? = some card) :
    s.deck.dropLast ++ [card] = s.deck ∧
    s.deck.dropLast.length + 1 = s.deck.length ∧
    (MAX_VALUE < card_total (s.player ++ [card]) →
      runLoop s ("1" :: rest)
        = .ret false (some .bust)
            ⟨s.deck.dropLast, s.dealer, s.player ++ [card]⟩) ∧
    (card_total (s.player ++ [card]) ≤ MAX_VALUE →
      runLoop s ("1" :: rest)
        = runLoop ⟨s.deck.dropLast, s.dealer, s.player ++ [card]⟩ rest) := by
  obtain ⟨l', hdeck⟩ := List.getLast?_eq_some_iff.1 hlast
  have hcat : s.deck.dropLast ++ [card] = s.deck := by
    rw [hdeck]
    simp
  have hdraw : hitDraw s
      = some ⟨s.deck.dropLast, s.dealer, s.player ++ [card]⟩ := by
    unfold hitDraw
    rw [hlast]
  have hrun : runLoop s ("1" :: rest) =
      if MAX_VALUE < card_total (s.player ++ [card])
      then .ret false (some .bust)
        ⟨s.deck.dropLast, s.dealer, s.player ++ [card]⟩
      else runLoop ⟨s.deck.dropLast, s.dealer, s.player ++ [card]⟩ rest := by
    have hloop : runLoop s ("1" :: rest) =
        (match stepLine s "1" with
          | .next s' _ => runLoop s' rest
          | .ret won msg final => .ret won (some msg) final
          | .panicked => .panicked) := rfl
    rw [hloop]
    unfold stepLine
    rw [if_pos rfl, hdraw]
    dsimp only []
    by_cases hb : MAX_VALUE < card_total (s.player ++ [card])
    · rw [if_pos hb, if_pos hb]
    · rw [if_neg hb, if_neg hb]
  refine ⟨hcat, ?_, ?_, ?_⟩
  · rw [← hcat]
    simp
  · intro h
    rw [hrun, if_pos h]
  · intro h
    rw [hrun, if_neg (Nat.not_lt.mpr h)]

/-- Claim C3 witness: hitting with one card left in the deck draws it,
reaches 17, and the loop continues. -/
theorem hit_outcome_witness :
    ([Card.mk .five .clubs] : List Card).getLast?
      = some (Card.mk .five .clubs) ∧
    card_total ([Card.mk .ten .spades, Card.mk .two .hearts]
      ++ [Card.mk .five .clubs]) ≤ MAX_VALUE ∧
    runLoop ⟨[Card.mk .five .clubs], [],
        [Card.mk .ten .spades, Card.mk .two .hearts]⟩ ["1"]
      = runLoop ⟨[], [],
          [Card.mk .ten .spades, Card.mk .two .hearts, Card.mk .five .clubs]⟩
          [] :=
  ⟨rfl, by decide,
   (hit_outcome ⟨[Card.mk .five .clubs], [],
      [Card.mk .ten .spades, Card.mk .two .hearts]⟩
      (Card.mk .five .clubs) [] rfl).2.2.2 (by decide)⟩

/-- Claim C4: `create_deck` always yields exactly 52 pairwise-distinct
cards, covering every (rank, suit) combination, sorted suit-major and
rank-minor; it is a closed pure definition, so no randomness is
involved. -/
theorem create_deck_spec :
    create_deck.length = 52 ∧ create_deck.Nodup ∧
    (∀ card : Card, card ∈ create_deck) ∧
    List.Pairwise cardLexLt create_deck := by
  decide

/-- Claim C5: the rank-to-value mapping is total on the thirteen ranks,
sends Two..Ten to their face numbers, Jack, Queen and King to 10, and
Ace to 11 — never to 1. -/
theorem usizeFrom_rank_values :
    usizeFrom .two = 2 ∧ usizeFrom .three = 3 ∧ usizeFrom .four = 4 ∧
    usizeFrom .five = 5 ∧ usizeFrom .six = 6 ∧ usizeFrom .seven = 7 ∧
    usizeFrom .eight = 8 ∧ usizeFrom .nine = 9 ∧ usizeFrom .ten = 10 ∧
    usizeFrom .jack = 10 ∧ usizeFrom .queen = 10 ∧ usizeFrom .king = 10 ∧
    usizeFrom .ace = 11 ∧ (∀ v : Value, usizeFrom v ≠ 1) := by
  decide

/-- Claim C6: `card_total` of any hand is the plain sum of the mapped
rank values with no cap, it is invariant under permutation of the hand,
and a [King, Ace] hand totals 21. -/
theorem card_total_spec (h1 h2 : List Card) (hperm : h1.Perm h2) :
    card_total h1 = (h1.map fun card => usizeFrom card.value).sum ∧
    card_total h1 = card_total h2 ∧
    card_total [Card.mk .king .spades, Card.mk .ace .hearts] = 21 := by
  refine ⟨card_total_eq_sum h1, ?_, by decide⟩
  rw [card_total_eq_sum h1, card_total_eq_sum h2]
  exact (hperm.map _).sum_eq

/-- Claim C6 witness: a two-card hand and its reversal. -/
theorem card_total_spec_witness :
    List.Perm [Card.mk .king .spades, Card.mk .ace .hearts]
      [Card.mk .ace .hearts, Card.mk .king .spades] ∧
    (card_total [Card.mk .king .spades, Card.mk .ace .hearts]
        = (([Card.mk .king .spades, Card.mk .ace .hearts] : List Card).map
            fun card => usizeFrom card.value).sum ∧
      card_total [Card.mk .king .spades, Card.mk .ace .hearts]
        = card_total [Card.mk .ace .hearts, Card.mk .king .spades] ∧
      card_total [Card.mk .king .spades, Card.mk .ace .hearts] = 21) :=
  ⟨by decide, card_total_spec _ _ (by decide)⟩

/-- Claim C7: for every shuffle of the full deck and every round state
reached during the round — right after dealing, after every hit
(including a bust-terminating hit, whose post-draw state the program
still renders), and at every terminal state — deck, dealer hand and
player hand together are a permutation of the 52-card deck: no card is
duplicated, lost, or created. -/
theorem round_partition_invariant (shuffled : List Card) (s : RoundState)
    (hshuffle : shuffled.Perm create_deck) (hreach : Reachable shuffled s) :
    (s.deck ++ s.dealer ++ s.player).Perm create_deck := by
  induction hreach with
  | init => exact (deal_perm shuffled).trans hshuffle
  | step hr hstep ih => exact (stepLine_next_perm hstep).trans ih
  | stop hr hstep ih => exact (stepLine_ret_perm hstep).trans ih

/-- Claim C7 witness: the invariant holds right after dealing from the
identity shuffle. -/
theorem round_partition_invariant_witness :
    create_deck.Perm create_deck ∧
    Reachable create_deck (deal create_deck) ∧
    ((deal create_deck).deck ++ (deal create_deck).dealer
      ++ (deal create_deck).player).Perm create_deck :=
  ⟨List.Perm.refl _, Reachable.init,
   round_partition_invariant create_deck (deal create_deck)
     (List.Perm.refl _) Reachable.init⟩

/-- Claim C8: any input line other than "1" and "2" leaves deck and both
hands unchanged, prints the invalid-option message, reaches no terminal
state, and the loop goes on reading the remaining input from the very
same state. -/
theorem invalid_input_frame (s : RoundState) (line : String)
    (rest : List String) (h1 : line ≠ "1") (h2 : line ≠ "2") :
    stepLine s line = .next s true ∧
    runLoop s (line :: rest) = runLoop s rest := by
  have hstep : stepLine s line = .next s true := by
    unfold stepLine
    rw [if_neg h1, if_neg h2]
  refine ⟨hstep, ?_⟩
  have hloop : runLoop s (line :: rest) =
      (match stepLine s line with
        | .next s' _ => runLoop s' rest
        | .ret won msg final => .ret won (some msg) final
        | .panicked => .panicked) := rfl
  rw [hloop, hstep]

/-- Claim C8 witness: the line "3" re-prompts without touching the
state. -/
theorem invalid_input_frame_witness :
    ("3" : String) ≠ "1" ∧ ("3" : String) ≠ "2" ∧
    (stepLine ⟨[], [], [Card.mk .two .spades]⟩ "3"
        = .next ⟨[], [], [Card.mk .two .spades]⟩ true ∧
      runLoop ⟨[], [], [Card.mk .two .spades]⟩ ["3"]
        = runLoop ⟨[], [], [Card.mk .two .spades]⟩ []) :=
  ⟨by decide, by decide,
   invalid_input_frame ⟨[], [], [Card.mk .two .spades]⟩ "3" []
     (by decide) (by decide)⟩

/-- Claim C9: when stdin yields no further lines while the loop is still
awaiting a choice, the round returns `false` with no terminal message —
the degenerate `Ok(false)` fall-through after the `while let`. -/
theorem stream_end_returns_false (shuffled : List Card) (s : RoundState) :
    runLoop s [] = .ret false none s ∧
    play_round shuffled [] = .ret false none (deal shuffled) :=
  ⟨rfl, rfl⟩

/-- Claim C9 witness: the empty input script on the identity shuffle. -/
theorem stream_end_returns_false_witness :
    play_round create_deck [] = .ret false none (deal create_deck) :=
  (stream_end_returns_false create_deck ⟨[], [], []⟩).2

/-- Claim C10: the bust condition is only checked after a hit, never
after the initial deal: there is a shuffle of the full deck that deals
the player two aces (total 22, already over 21), yet the round stays in
the choice loop (an invalid line just re-prompts), and standing there
wins because the player total still matches or beats the dealer's. -/
theorem bust_unchecked_after_deal :
    ex_shuffle.Perm create_deck ∧
    card_total (deal ex_shuffle).player = 22 ∧
    MAX_VALUE < card_total (deal ex_shuffle).player ∧
    stepLine (deal ex_shuffle) "hello" = .next (deal ex_shuffle) true ∧
    card_total (deal ex_shuffle).dealer ≤ card_total (deal ex_shuffle).player ∧
    runLoop (deal ex_shuffle) ["2"]
      = .ret true (some .standWin) (deal ex_shuffle) :=
  ⟨by decide, by decide, by decide, by decide, by decide, by decide⟩
